import Mathlib

/-!
# Verification of the ssdna-hic analysis toolkit against its specification

Shallow embedding of the parts of the repository that the checked claims
are about, together with theorems settling each claim.

Conventions of the embedding:
* a pandas table is a list of row structures or of tuples (one row per
  list element); a numeric "probe column" is modelled by one
  rational-valued field, since the source transforms every column of a
  column family identically (the same loop body runs per column);
* Python floats are modelled by `Rat`: the claims assert exact identities
  or identities up to floating-point tolerance, and the exact rational
  identities imply the tolerant ones;
* Python `int` arithmetic is `Int` (with `Int.fdiv` for Python's floor
  division `//`) or `Nat` where the source values are non-negative counts
  and coordinates (`Nat./` agrees with Python `//` there);
* Python code that can raise returns `Except`; `pandas` missing values
  (`NaN`) in a column are `Option` values, with sums and means skipping
  `none` as pandas does.
-/

namespace SshdnaHic

/-! ## `sshic/core/utils.py`: `detect_delimiter` (lines 23-31) and
`sort_by_chr` (lines 45-61) -/

/-- The canonical chromosome order hard-coded in `sort_by_chr`
(`sshic/core/utils.py` lines 47-49): `chr1..chr16`, `2_micron`,
`mitochondrion`, `chr_artificial`. -/
def chr_order : List String :=
  ["chr1", "chr2", "chr3", "chr4", "chr5", "chr6", "chr7",
   "chr8", "chr9", "chr10", "chr11", "chr12", "chr13", "chr14",
   "chr15", "chr16", "2_micron", "mitochondrion", "chr_artificial"]

/-- Line 51 of `sshic/core/utils.py`:
`order.index(x) if x in order else len(order)`. -/
def chr_code (x : String) : Nat :=
  if x ∈ chr_order then chr_order.indexOf x else chr_order.length

/-- Line 58 of `sshic/core/utils.py`: `order[x]` applied to an integer
code.  Python list indexing raises `IndexError` when the index is out of
range, which happens exactly for the code `len(order)` that line 51
assigns to unrecognized names. -/
def chr_restore (c : Nat) : Except String String :=
  match chr_order.get? c with
  | some s => Except.ok s
  | none => Except.error "IndexError: list index out of range"

/-- Stable insertion of a code into an ascending list of codes. -/
def insert_le (x : Nat) : List Nat → List Nat
  | [] => [x]
  | y :: ys => if y ≤ x then y :: insert_le x ys else x :: y :: ys

/-- Sorting of the integer chromosome codes, modelling
`df.sort_values(by=['chr'])` (line 56 of `sshic/core/utils.py`).  On the
inputs evaluated below all codes are distinct, so any correct sorting
algorithm produces the same order as pandas does. -/
def sort_codes : List Nat → List Nat
  | [] => []
  | x :: xs => insert_le x (sort_codes xs)

/-- `sort_by_chr` of `sshic/core/utils.py` (lines 45-61), restricted to
the `chr` column (the only column the claim about it concerns): map each
name to its integer code (line 51), sort by the codes (line 56), then map
each code back through `order[x]` (line 58), which raises `IndexError`
whenever an unrecognized name produced the out-of-range code
`len(order)`. -/
def sort_by_chr_names (chrs : List String) : Except String (List String) :=
  let codes := chrs.map chr_code
  let sorted := sort_codes codes
  sorted.mapM chr_restore

/-- `detect_delimiter` of `sshic/core/utils.py` (lines 23-31), expressed
on the contents of the file it reads: count tab and comma characters in
the whole text and return a tab iff there are strictly more tabs than
commas, a comma otherwise. -/
def detect_delimiter (contents : String) : Char :=
  let tabs := contents.toList.count '\t'
  let commas := contents.toList.count ','
  if tabs > commas then '\t' else ','

/-! ## `src/sshicstuff/commands.py`: `check_exists` (lines 12-19) and the
per-subcommand preflight calls.  The file system is modelled by a
predicate `fs : String → Bool` telling which paths exist. -/

/-- `check_exists` of `src/sshicstuff/commands.py` (lines 12-19).  The
loop body `return`s as soon as `os.path.exists(file_path)` holds and
raises `FileNotFoundError` otherwise, so both branches leave the loop on
its first iteration: only the first argument is ever examined. -/
def check_exists (fs : String → Bool) : List String → Except String Unit
  | [] => Except.ok ()
  | file_path :: _ =>
      if fs file_path then Except.ok ()
      else Except.error ("File " ++ file_path ++ " does not exist.")

/-- The preflight of `Filter.execute` (`src/sshicstuff/commands.py`
line 191): `check_exists(fragments, oligos_capture, sparse_matrix)`. -/
def filter_preflight (fs : String → Bool)
    (fragments oligos_capture sparse_matrix : String) : Except String Unit :=
  check_exists fs [fragments, oligos_capture, sparse_matrix]

/-- A file system on which the fragments file of the `filter` subcommand
exists but its oligos-capture and sparse-matrix files do not. -/
def fs_only_fragments : String → Bool :=
  fun p => p == "fragments.txt"

/-! ## `src/sshicstuff/binning.py`: `build_bins_from_genome`
(lines 12-32) and the core of `rebin_contacts` (lines 35-103).
The identical `build_bins_from_genome` also appears in
`src/sshic/binning.py` (lines 12-52); one embedding covers both. -/

/-- The per-chromosome bin starts
`np.arange(0, (l // bin_size + 1) * bin_size, bin_size)`
(`src/sshicstuff/binning.py` line 21): the `l / B + 1` values
`0, B, 2B, ..., (l / B) * B`. -/
def bin_starts (L B : Nat) : List Nat := (List.range (L / B + 1)).map (fun i => i * B)

/-- The three columns of the template table returned by
`build_bins_from_genome`. -/
structure BinTemplate where
  chr_col : List String
  chr_bins_col : List Nat
  genome_bins : List Nat

/-- `build_bins_from_genome` of `src/sshicstuff/binning.py`
(lines 12-32): per chromosome `(c, l)`, the `chr` column repeats `c`
`l // bin_size + 1` times (line 20) and the `chr_bins` column holds the
bin starts (line 21); the `genome_bins` column is
`np.arange(0, len(chr_bins) * bin_size, bin_size)` (line 29), i.e. a
purely sequential renumbering of the concatenated rows.  The genome is
the `(chr, length)` table read from the coordinates file. -/
def build_bins_from_genome (genome : List (String × Nat)) (B : Nat) : BinTemplate :=
  let bins_col := (genome.map (fun p => bin_starts p.2 B)).flatten
  { chr_col := (genome.map (fun p => List.replicate (p.2 / B + 1) p.1)).flatten
    chr_bins_col := bins_col
    genome_bins := (List.range bins_col.length).map (fun i => i * B) }

/-- The `(chr, chr_bins)` keys of the template rows, i.e. the key pair on
which `rebin_contacts` merges (`src/sshicstuff/binning.py` line 86). -/
def template_keys (genome : List (String × Nat)) (B : Nat) : List (String × Nat) :=
  (build_bins_from_genome genome B).chr_col.zip (build_bins_from_genome genome B).chr_bins_col

/-- One row of the unbinned profile table: chromosome, `start`, `sizes`,
and one probe-fragment contact column `v` (every column matched by the
regex `^\d+$` is rescaled by the same loop, lines 77-79, so one generic
column represents each of them). -/
structure URow where
  chr : String
  start : Nat
  size : Nat
  v : Rat

/-- The fractional weight `(end - end_bin) / sizes` of the `end_bin` half
of a bin-spanning row (`src/sshicstuff/binning.py` line 76, with
`end = start + sizes` from line 50 and `end_bin = end // B * B` from
line 53). -/
def frac_end (B : Nat) (r : URow) : Rat :=
  (((r.start + r.size) - (r.start + r.size) / B * B : Nat) : Rat) / (r.size : Rat)

/-- The split of one unbinned row into binned entries keyed by
`(chr, chr_bins)` (`src/sshicstuff/binning.py` lines 52-53 and 65-79):
a row whose `start_bin` equals its `end_bin` contributes its value to
that single bin; a bin-spanning row is split into a `start_bin` entry
scaled by `1 - frac_end` and an `end_bin` entry scaled by `frac_end`. -/
def split_row (B : Nat) (r : URow) : List ((String × Nat) × Rat) :=
  let e := r.start + r.size
  let sb := r.start / B * B
  let eb := e / B * B
  if sb = eb then [((r.chr, sb), r.v)]
  else [((r.chr, sb), r.v * (1 - frac_end B r)), ((r.chr, eb), r.v * frac_end B r)]

/-- The binned contact column produced by `rebin_contacts`
(`src/sshicstuff/binning.py` lines 81-88): concatenate the split entries
of all rows, group them by `(chr, chr_bins)` summing the value column,
and left-merge the sums onto the full bin template with `fillna(0)` --
one output row per template key, holding the sum of the entries with that
key (zero when there are none).  The intermediate `sort_by_chr` call
(line 85, from the `utils` module that is not part of the examined
sources) only permutes the grouped rows before the template merge and is
absorbed by the template-indexed result. -/
def rebin_column (genome : List (String × Nat)) (B : Nat) (rows : List URow) :
    List ((String × Nat) × Rat) :=
  let entries := (rows.map (split_row B)).flatten
  (template_keys genome B).map
    (fun k => (k, ((entries.filter (fun e => e.1 == k)).map (fun e => e.2)).sum))

/-- The value column of a binned table. -/
def col_values (t : List ((String × Nat) × Rat)) : List Rat :=
  t.map (fun e => e.2)

/-- The frequency-normalization loop body shared by `rebin_contacts`
(`src/sshicstuff/binning.py` lines 91-94) and `profile_contacts`
(lines 240-243): `frag_sum = col.sum()`; `if frag_sum > 0: col /= frag_sum`. -/
def normalize_column (col : List Rat) : List Rat :=
  if col.sum > 0 then col.map (fun x => x / col.sum) else col

/-- The binned frequency column of `rebin_contacts`
(`src/sshicstuff/binning.py` lines 90-94): the binned contact column,
normalized by its own sum when that sum is positive. -/
def rebin_frequencies (genome : List (String × Nat)) (B : Nat) (rows : List URow) :
    List ((String × Nat) × Rat) :=
  let binned := rebin_column genome B rows
  (binned.map (fun e => e.1)).zip (normalize_column (col_values binned))

/-! ## `src/sshicstuff/core/statistics.py`: the per-probe fraction block
of `get_stats` (lines 74-100) -/

/-- One row of the unbinned profile as `get_stats` reads it: chromosome,
`start`, `sizes`, and the probe-fragment contact column `v`. -/
structure PRow where
  chr : String
  start : Int
  size : Int
  v : Rat

/-- `probe_contacts = sub_df[frag].sum()`
(`src/sshicstuff/core/statistics.py` line 79). -/
def probe_contacts (rows : List PRow) : Rat := (rows.map (fun r => r.v)).sum

/-- `probes_contacts_inter = sub_df.query("chr != @self_chr_ori")[frag].sum()`
(`src/sshicstuff/core/statistics.py` line 82). -/
def inter_chr_contacts (chr_ori : String) (rows : List PRow) : Rat :=
  ((rows.filter (fun r => r.chr != chr_ori)).map (fun r => r.v)).sum

/-- The cis restriction sum of line 85 of
`src/sshicstuff/core/statistics.py`:
`sub_df.query("chr == @self_chr_ori & start >= @cis_start & end <= @cis_stop")[frag].sum()`
with `end = start + sizes` (line 75). -/
def cis_contacts_sum (chr_ori : String) (cis_start cis_stop : Int) (rows : List PRow) : Rat :=
  ((rows.filter
      (fun r => r.chr == chr_ori && cis_start ≤ r.start && r.start + r.size ≤ cis_stop)).map
    (fun r => r.v)).sum

/-- Lines 76-100 of `src/sshicstuff/core/statistics.py`: the four
per-probe fractions `(cis, trans, intra_chr, inter_chr)`.  When
`probe_contacts > 0`, `cis` is the cis restriction sum over the total,
`trans = 1 - cis`, `inter_chr` is the inter-chromosome sum over the
total and `intra_chr = 1 - inter_chr`; otherwise all four are set
to 0 (lines 91-95). -/
def get_stats_fractions (chr_ori : String) (start_ori stop_ori cis_range : Int)
    (rows : List PRow) : Rat × Rat × Rat × Rat :=
  let pc := probe_contacts rows
  if pc > 0 then
    let cis_freq := cis_contacts_sum chr_ori (start_ori - cis_range) (stop_ori + cis_range) rows / pc
    let inter_chr_freq := inter_chr_contacts chr_ori rows / pc
    (cis_freq, 1 - cis_freq, 1 - inter_chr_freq, inter_chr_freq)
  else (0, 0, 0, 0)

/-! ## `src/src/hic_ssdna/aggregate_contacts.py`: the pooled
standard-deviation merge inside `pooled_stats` (lines 143-171) -/

/-- The square of the pooled standard deviation of line 168 of
`src/src/hic_ssdna/aggregate_contacts.py`:
`((n1 - 1) * std1 ** 2 + (n2 - 1) * std2 ** 2) / (n1 + n2 - 2)`, where
`n1` and `n2` are the lengths of the left and right half columns
(lines 166-167) and `std1`, `std2` are the column entries it is applied
to elementwise.  The code then takes `np.sqrt` of this value; the square
root is applied at the statement level via `Real.sqrt`. -/
def pooled_std_sq (n1 n2 : Nat) (s1 s2 : Rat) : Rat :=
  (((n1 : Rat) - 1) * s1 ^ 2 + ((n2 : Rat) - 1) * s2 ^ 2) / ((n1 : Rat) + (n2 : Rat) - 2)

/-! ## `src/sshicstuff/core/aggregated.py`: the `aggregate` engine
(lines 29-177), in particular the centromere-mode window filter and
recentring (lines 104-113) and the arm-size setup loop (lines 54-61). -/

/-- The window predicate of lines 107-108 of
`src/sshicstuff/core/aggregated.py`:
`(chr_bins > left_arm_length - window_size - 10000) & (chr_bins < left_arm_length + window_size)`.
Both comparisons are strict. -/
def cen_filter (w L b : Int) : Bool := (b > L - w - 10000) && (b < L + w)

/-- The recentring of lines 109-110 of `src/sshicstuff/core/aggregated.py`:
`abs(chr_bins - (left_arm_length // 10000) * 10000)` -- the absolute
difference between the bin and the centromere position rounded *down* to
a multiple of 10 kb (Python `//` is floor division). -/
def cen_recenter (L b : Int) : Int := |b - (Int.fdiv L 10000) * 10000|

/-- One row of the merged contacts-and-coordinates table of centromere
mode: the binned position `chr_bins`, the joined `left_arm_length`, and
the remaining columns (irrelevant to the window claim) as `rest`. -/
structure CenRow (α : Type) where
  chr_bins : Int
  left_arm_length : Int
  rest : α
deriving DecidableEq

/-- Lines 106-110 of `src/sshicstuff/core/aggregated.py`: keep the rows
passing `cen_filter` and replace each retained row's `chr_bins` by its
recentred value. -/
def cen_areas {α : Type} (w : Int) (rows : List (CenRow α)) : List (CenRow α) :=
  (rows.filter (fun r => cen_filter w r.left_arm_length r.chr_bins)).map
    (fun r => { r with chr_bins := cen_recenter r.left_arm_length r.chr_bins })

/-- Modelled from the spec: the claim's reading of the window bounds,
`left_arm_length - window - 10000 <= bin < left_arm_length + window`
(closed at the lower bound), for comparison with `cen_filter`. -/
def cen_filter_spec (w L b : Int) : Bool := (L - w - 10000 ≤ b) && (b < L + w)

/-- Modelled from the spec: rounding to the *nearest* multiple of 10 kb
(half rounded up), used by the claim's reading of the recentring. -/
def round_to_10k (d : Int) : Int := (Int.fdiv (d + 5000) 10000) * 10000

/-- Modelled from the spec: the claim's reading of the recentring -- the
absolute distance from the centromere, rounded to the nearest 10 kb. -/
def cen_recenter_spec (L b : Int) : Int := round_to_10k |b - L|

/-- Python exceptions raised by the modelled fragments of `aggregate`. -/
inductive PyErr where
  | typeError
  | indexError
deriving DecidableEq

/-- Python's `x not in l` on an optional list: evaluating it on `None`
raises `TypeError: argument of type 'NoneType' is not iterable`
(line 56 of `src/sshicstuff/core/aggregated.py` when
`excluded_chr_list` keeps its default `None`). -/
def py_not_in (x : String) (l : Option (List String)) : Except PyErr Bool :=
  match l with
  | none => Except.error PyErr.typeError
  | some ls => Except.ok (decide (x ∉ ls))

/-- Python's `len(l)` on an optional list: `len(None)` raises
`TypeError` (line 78 of `src/sshicstuff/core/aggregated.py`). -/
def py_len {α : Type} (l : Option (List α)) : Except PyErr Nat :=
  match l with
  | none => Except.error PyErr.typeError
  | some ls => Except.ok ls.length

/-- Splitting a character list on a separator character, the semantics
of Python's `str.split` with a one-character separator. -/
def split_on_char (c : Char) : List Char → List (List Char)
  | [] => [[]]
  | x :: xs =>
      let r := split_on_char c xs
      if x == c then [] :: r
      else
        match r with
        | [] => [[x]]
        | h :: t => (x :: h) :: t

/-- `category_.split("_")[0]` and `category_.split("_")[1]` of
lines 60-61 of `src/sshicstuff/core/aggregated.py`; indexing `[1]`
raises `IndexError` when the category has no underscore. -/
def split_category (cat : String) : Except PyErr (String × String) :=
  match (split_on_char '_' cat.toList).map (fun l => String.mk l) with
  | c1 :: c2 :: _ => Except.ok (c1, c2)
  | _ => Except.error PyErr.indexError

/-- One row of the chromosome coordinates table as `aggregate` reads it;
`none` models a `NaN` cell. -/
structure CoordRow where
  chr : String
  length : Int
  left_arm_length : Option Int
  right_arm_length : Option Int
  category : Option String
deriving DecidableEq

/-- One row of the `df_arms_size` table built by lines 53-61 of
`src/sshicstuff/core/aggregated.py`. -/
structure ArmRow where
  chr : String
  arm : String
  size : Int
  category : String
deriving DecidableEq

/-- The arm-size setup loop of lines 54-61 of
`src/sshicstuff/core/aggregated.py`: for every coordinate row, test
`chr_ not in excluded_chr_list` (raising `TypeError` when the argument
kept its default `None`), skip rows with a missing arm length or
category, and append a left and a right arm row otherwise. -/
def build_arms (coords : List CoordRow) (excluded : Option (List String)) :
    Except PyErr (List ArmRow) :=
  coords.foldlM (fun acc row => do
    let notin ← py_not_in row.chr excluded
    if notin then
      match row.left_arm_length, row.right_arm_length, row.category with
      | some l, some r, some cat => do
          let parts ← split_category cat
          pure (acc ++ [⟨row.chr, "left", l, parts.1⟩, ⟨row.chr, "right", r, parts.2⟩])
      | _, _, _ => pure acc
    else pure acc) []

/-- One row of the binned contacts table as `aggregate` reads it: the
chromosome, the bin, and one probe-fragment column `v` (with `none`
modelling a `NaN`, as written by line 90 of
`src/sshicstuff/core/aggregated.py`). -/
structure ContRow where
  chr : String
  chr_bins : Int
  v : Option Rat
deriving DecidableEq

/-- A pandas column sum: `NaN` entries are skipped. -/
def nan_sum (l : List (Option Rat)) : Rat := (l.map (fun x => x.getD 0)).sum

/-- The number of non-`NaN` entries of a column. -/
def nan_count (l : List (Option Rat)) : Nat := (l.filter (fun x => x.isSome)).length

/-- A pandas column mean: the mean of the non-`NaN` entries, `NaN` when
there is none. -/
def nan_mean (l : List (Option Rat)) : Option Rat :=
  if nan_count l = 0 then none else some (nan_sum l / (nan_count l : Rat))

/-- Modelled from the spec: `sort_by_chr` as imported by
`src/sshicstuff/core/aggregated.py` line 23 from `sshicstuff.core.utils`,
a module that is not part of the examined sources.  Per the spec it
imposes the canonical chromosome order with unrecognized names after all
known ones and returns the sorted table; here it sorts the grouped rows
by `(chr_code, chr_bins)` with a stable insertion sort. -/
def grouped_le (x y : (String × Int) × Option Rat) : Bool :=
  chr_code x.1.1 < chr_code y.1.1 ||
    (chr_code x.1.1 == chr_code y.1.1 && x.1.2 ≤ y.1.2)

/-- Stable insertion for `sort_grouped`. -/
def insert_grouped (x : (String × Int) × Option Rat) :
    List ((String × Int) × Option Rat) → List ((String × Int) × Option Rat)
  | [] => [x]
  | y :: ys => if grouped_le y x then y :: insert_grouped x ys else x :: y :: ys

/-- Modelled from the spec (see `grouped_le`): the sort applied to the
grouped centromere table at line 141 of
`src/sshicstuff/core/aggregated.py`. -/
def sort_grouped : List ((String × Int) × Option Rat) → List ((String × Int) × Option Rat)
  | [] => []
  | x :: xs => insert_grouped x (sort_grouped xs)

/-- The result of a completed `aggregate` run: the grouped centromere
table (line 111-112 of `src/sshicstuff/core/aggregated.py`) and the
names of the tables written (lines 144-149 and 151-157).  The numeric
contents of the std table involve elementwise real square roots and are
not inspected by any claim, so only the grouped table is carried. -/
structure AggOut where
  grouped : List ((String × Int) × Option Rat)
  files : List String
deriving DecidableEq

/-- The `aggregate` engine of `src/sshicstuff/core/aggregated.py`
(lines 29-157) in centromere mode, for one probe fragment:

* lines 54-61: the arm-size loop (`build_arms`) -- the first use of
  `excluded_chr_list`, raising `TypeError` on the default `None`;
* line 78: `len(excluded_chr_list) > 0`, guarding the exclusion filter
  of lines 79-80;
* lines 82-90: when `exclude_probe_chr`, the probe's own-chromosome
  contacts are set to `NaN`;
* lines 92-96: when `inter_normalization`, the probe column is divided
  by its own sum (pandas produces non-finite values when that sum is
  zero; no claim inspects that case, the division here is total);
* lines 104-113: centromere mode -- merge with the coordinates on `chr`,
  keep the `cen_filter` window, recenter with `cen_recenter`, group by
  `(chr, chr_bins)` averaging;
* line 141: `sort_by_chr` (see `sort_grouped`);
* lines 144-157: write the mean/std/median tables and, when the grouped
  column has a nonzero sum, the per-chromosome pivot of the fragment.

The telomere branch and the plotting are not exercised by any claim and
are omitted.  All writes happen after every raise point, so an
`Except.error` result corresponds to a run that wrote nothing. -/
def aggregate_model (coords : List CoordRow) (contacts : List ContRow)
    (probe_chr_ori : String) (window_size : Int)
    (excluded_chr_list : Option (List String))
    (exclude_probe_chr : Bool) (inter_normalization : Bool) :
    Except PyErr AggOut := do
  let _arms ← build_arms coords excluded_chr_list
  let n ← py_len excluded_chr_list
  let exls := excluded_chr_list.getD []
  let contacts1 := if n > 0 then contacts.filter (fun r => decide (r.chr ∉ exls)) else contacts
  let coords1 := if n > 0 then coords.filter (fun r => decide (r.chr ∉ exls)) else coords
  let notin2 ← py_not_in probe_chr_ori excluded_chr_list
  let contacts2 := if exclude_probe_chr && notin2 then
      contacts1.map (fun r => if r.chr == probe_chr_ori then { r with v := none } else r)
    else contacts1
  let s := nan_sum (contacts2.map (fun r => r.v))
  let contacts3 := if inter_normalization then
      contacts2.map (fun r => { r with v := r.v.map (fun x => x / s) })
    else contacts2
  let merged := (contacts3.map (fun r =>
      (coords1.filter (fun c => c.chr == r.chr)).map (fun c => (r, c)))).flatten
  let cen_rows := merged.filter (fun rc =>
      match rc.2.left_arm_length with
      | some L => cen_filter window_size L rc.1.chr_bins
      | none => false)
  let recentred := cen_rows.map (fun rc =>
      { rc.1 with chr_bins := cen_recenter (rc.2.left_arm_length.getD 0) rc.1.chr_bins })
  let keys := (recentred.map (fun r => (r.chr, r.chr_bins))).dedup
  let grouped := keys.map (fun k =>
      (k, nan_mean ((recentred.filter (fun r => (r.chr, r.chr_bins) == k)).map (fun r => r.v))))
  let sorted := sort_grouped grouped
  let suffix := if inter_normalization then "inter" else "absolute"
  let base := ["aggregated_mean_contacts_around_centromeres_" ++ suffix ++ ".tsv",
               "aggregated_std_contacts_around_centromeres_" ++ suffix ++ ".tsv",
               "aggregated_median_contacts_around_centromeres_" ++ suffix ++ ".tsv"]
  let pivots := if nan_sum (sorted.map (fun e => e.2)) == 0 then []
    else ["fragment_contacts_around_centromeres_per_chr_" ++ suffix ++ ".tsv"]
  pure { grouped := sorted, files := base ++ pivots }

/-- A two-chromosome coordinates table used to evaluate the theorems on
concrete inputs. -/
def demo_coords : List CoordRow :=
  [{ chr := "chr1", length := 230218, left_arm_length := some 151465,
     right_arm_length := some 78753, category := some "small_long" },
   { chr := "chr2", length := 813184, left_arm_length := some 238207,
     right_arm_length := some 574977, category := some "long_long" }]

/-- A small binned contacts table used to evaluate the theorems on
concrete inputs. -/
def demo_contacts : List ContRow :=
  [{ chr := "chr1", chr_bins := 150000, v := some 3 },
   { chr := "chr2", chr_bins := 240000, v := some 5 }]


/-- A one-chromosome genome used to evaluate the rebinning theorems on a
concrete input. -/
def demo_genome : List (String × Nat) := [("chr1", 10)]

/-- A one-row unbinned profile whose row spans two bins of size 4
(start 3, size 4, so end 7: `start_bin = 0`, `end_bin = 4`). -/
def demo_rows : List URow := [{ chr := "chr1", start := 3, size := 4, v := 5 }]

/-- A two-chromosome genome used to evaluate the binning-template theorem
on a concrete input. -/
def demo_genome2 : List (String × Nat) := [("chr1", 7), ("chr2", 5)]

/-- A two-row profile slice used to evaluate the statistics theorem on a
concrete input. -/
def demo_prows : List PRow :=
  [{ chr := "chr1", start := 0, size := 10, v := 3 },
   { chr := "chr2", start := 5, size := 5, v := 1 }]

/-! ## Helper lemmas -/

lemma replicate_zip {α β : Type} (c : α) : ∀ (l : List β) (n : Nat), l.length = n →
    (List.replicate n c).zip l = l.map (fun b => (c, b))
  | [], 0, _ => rfl
  | b :: bs, n + 1, h => by
    simp only [List.replicate, List.zip_cons_cons, List.map_cons]
    exact congrArg _ (replicate_zip c bs n (by simpa using h))
  | [], n + 1, h => by simp at h
  | b :: bs, 0, h => by simp at h

lemma bin_starts_length (L B : Nat) : (bin_starts L B).length = L / B + 1 := by
  simp [bin_starts]

lemma template_keys_eq (genome : List (String × Nat)) (B : Nat) :
    template_keys genome B =
      (genome.map (fun p => (bin_starts p.2 B).map (fun b => (p.1, b)))).flatten := by
  induction genome with
  | nil => rfl
  | cons p rest ih =>
    simp only [template_keys, build_bins_from_genome, List.map_cons, List.flatten_cons] at *
    rw [List.zip_append (by simp [bin_starts]), ih]
    rw [replicate_zip p.1 (bin_starts p.2 B) (p.2 / B + 1) (bin_starts_length p.2 B)]

lemma bin_starts_nodup (L B : Nat) (hB : 0 < B) : (bin_starts L B).Nodup := by
  refine List.Nodup.map ?_ (List.nodup_range _)
  intro i j h
  exact Nat.eq_of_mul_eq_mul_right hB h

lemma mem_bin_starts {L B b : Nat} :
    b ∈ bin_starts L B ↔ ∃ i, i ≤ L / B ∧ b = i * B := by
  simp only [bin_starts, List.mem_map, List.mem_range, Nat.lt_succ_iff]
  constructor
  · rintro ⟨i, hi, rfl⟩; exact ⟨i, hi, rfl⟩
  · rintro ⟨i, hi, rfl⟩; exact ⟨i, hi, rfl⟩

lemma template_keys_nodup (genome : List (String × Nat)) (B : Nat) (hB : 0 < B)
    (hnd : (genome.map Prod.fst).Nodup) : (template_keys genome B).Nodup := by
  rw [template_keys_eq]
  induction genome with
  | nil => simp
  | cons p rest ih =>
    simp only [List.map_cons, List.flatten_cons, List.nodup_cons] at hnd ⊢
    rw [List.nodup_append]
    refine ⟨List.Nodup.map ?_ (bin_starts_nodup p.2 B hB), ih hnd.2, ?_⟩
    · intro a b h; exact (Prod.mk.injEq _ _ _ _ ▸ h : _ ∧ _).2
    · intro x hx hx'
      simp only [List.mem_map] at hx
      obtain ⟨b, _, rfl⟩ := hx
      simp only [List.mem_flatten, List.mem_map] at hx'
      obtain ⟨l, ⟨q, hq, rfl⟩, hxl⟩ := hx'
      simp only [List.mem_map] at hxl
      obtain ⟨b', _, hb'⟩ := hxl
      injection hb' with h1 h2
      exact hnd.1 (h1 ▸ List.mem_map_of_mem Prod.fst hq)

lemma mem_template_keys {genome : List (String × Nat)} {B : Nat} {c : String} {b : Nat}
    (L : Nat) (hmem : (c, L) ∈ genome) (hb : b ∈ bin_starts L B) :
    (c, b) ∈ template_keys genome B := by
  rw [template_keys_eq]
  simp only [List.mem_flatten, List.mem_map]
  exact ⟨(bin_starts L B).map (fun x => (c, x)), ⟨(c, L), hmem, rfl⟩,
    List.mem_map_of_mem _ hb⟩

lemma sum_map_zero {α : Type} (l : List α) : (l.map (fun _ => (0 : Rat))).sum = 0 := by
  induction l with
  | nil => rfl
  | cons a l ih => simp [ih]

lemma sum_map_add {α : Type} (l : List α) (f g : α → Rat) :
    (l.map (fun k => f k + g k)).sum = (l.map f).sum + (l.map g).sum := by
  induction l with
  | nil => simp
  | cons a l ih => simp [ih]; ring

lemma sum_if_mem {α : Type} [DecidableEq α] (ks : List α) (k0 : α) (v : Rat)
    (hmem : k0 ∈ ks) (hnd : ks.Nodup) :
    (ks.map (fun k => if k0 = k then v else 0)).sum = v := by
  induction ks with
  | nil => simp at hmem
  | cons a ks ih =>
    rw [List.nodup_cons] at hnd
    rcases List.mem_cons.mp hmem with h | h
    · subst h
      simp only [List.map_cons, List.sum_cons, if_pos rfl]
      have : (ks.map (fun k => if k0 = k then v else 0)).sum = 0 := by
        have : ks.map (fun k => if k0 = k then v else 0) = ks.map (fun _ => (0 : Rat)) := by
          apply List.map_congr_left
          intro x hx
          rw [if_neg]
          intro h; exact hnd.1 (h ▸ hx)
        rw [this, sum_map_zero]
      rw [this]; simp
    · have hne : k0 ≠ a := by
        intro he; exact hnd.1 (he ▸ h)
      simp only [List.map_cons, List.sum_cons, if_neg hne]
      rw [ih h hnd.2]; ring

lemma sum_filter_key {α : Type} [DecidableEq α] [BEq α] [LawfulBEq α]
    (es : List (α × Rat)) (ks : List α) (hnd : ks.Nodup)
    (hmem : ∀ e ∈ es, e.1 ∈ ks) :
    (ks.map (fun k => ((es.filter (fun e => e.1 == k)).map (fun e => e.2)).sum)).sum =
      (es.map (fun e => e.2)).sum := by
  induction es with
  | nil => simp [sum_map_zero]
  | cons e es ih =>
    have hsplit : ∀ k : α,
        ((List.filter (fun x => x.1 == k) (e :: es)).map (fun x => x.2)).sum =
          (if e.1 = k then e.2 else 0) +
            ((List.filter (fun x => x.1 == k) es).map (fun x => x.2)).sum := by
      intro k
      by_cases h : e.1 = k
      · simp [List.filter_cons, h]
      · simp [List.filter_cons, beq_false_of_ne h, h]
    have heq : (ks.map (fun k =>
        ((List.filter (fun x => x.1 == k) (e :: es)).map (fun x => x.2)).sum)) =
        ks.map (fun k => (if e.1 = k then e.2 else 0) +
          ((List.filter (fun x => x.1 == k) es).map (fun x => x.2)).sum) :=
      List.map_congr_left (fun k _ => hsplit k)
    rw [heq, sum_map_add, sum_if_mem ks e.1 e.2 (hmem e (List.mem_cons_self e es)) hnd,
      ih (fun x hx => hmem x (List.mem_cons_of_mem e hx))]
    simp

lemma split_row_sum (B : Nat) (r : URow) :
    ((split_row B r).map (fun e => e.2)).sum = r.v := by
  unfold split_row
  by_cases h : r.start / B * B = (r.start + r.size) / B * B
  · simp [h]
  · simp [h]; ring

lemma split_row_keys {genome : List (String × Nat)} {B : Nat} {r : URow} {L : Nat}
    (hg : (r.chr, L) ∈ genome) (hfit : r.start + r.size ≤ L) :
    ∀ e ∈ split_row B r, e.1 ∈ template_keys genome B := by
  intro e he
  have hsb : (r.chr, r.start / B * B) ∈ template_keys genome B := by
    refine mem_template_keys L hg ?_
    rw [mem_bin_starts]
    exact ⟨r.start / B, Nat.div_le_div_right (le_trans (Nat.le_add_right _ _) hfit), rfl⟩
  have heb : (r.chr, (r.start + r.size) / B * B) ∈ template_keys genome B := by
    refine mem_template_keys L hg ?_
    rw [mem_bin_starts]
    exact ⟨(r.start + r.size) / B, Nat.div_le_div_right hfit, rfl⟩
  simp only [split_row] at he
  by_cases h : r.start / B * B = (r.start + r.size) / B * B
  · rw [if_pos h] at he
    simp only [List.mem_singleton] at he
    subst he
    exact hsb
  · rw [if_neg h] at he
    rcases List.mem_pair.mp he with rfl | rfl
    · exact hsb
    · exact heb

lemma filter_block_eq (c cp : String) (l : List Nat) :
    ((l.map (fun b => (cp, b))).filter (fun r => r.1 == c)) =
      if cp = c then l.map (fun b => (cp, b)) else [] := by
  by_cases h : cp = c
  · subst h
    rw [if_pos rfl]
    induction l with
    | nil => rfl
    | cons b bs ih => simp [List.filter_cons, ih]
  · rw [if_neg h]
    induction l with
    | nil => rfl
    | cons b bs ih => simp [List.filter_cons, beq_false_of_ne h, ih]

lemma filter_blocks_nil (c : String) (B : Nat) (rest : List (String × Nat))
    (hno : c ∉ rest.map Prod.fst) :
    ((rest.map (fun p => (bin_starts p.2 B).map (fun b => (p.1, b)))).flatten.filter
      (fun r => r.1 == c)) = [] := by
  induction rest with
  | nil => rfl
  | cons q qs ih =>
    simp only [List.map_cons, List.flatten_cons, List.filter_append]
    simp only [List.map_cons, List.mem_cons, not_or] at hno
    rw [filter_block_eq, if_neg (fun h => hno.1 h.symm), ih hno.2]
    rfl

lemma template_filter_eq (genome : List (String × Nat)) (B : Nat) (c : String) (L : Nat)
    (hnd : (genome.map Prod.fst).Nodup) (hmem : (c, L) ∈ genome) :
    (((template_keys genome B).filter (fun r => r.1 == c)).map (fun r => r.2)) =
      bin_starts L B := by
  rw [template_keys_eq]
  induction genome with
  | nil => simp at hmem
  | cons p rest ih =>
    simp only [List.map_cons, List.flatten_cons, List.filter_append, List.nodup_cons] at hnd ⊢
    rcases List.mem_cons.mp hmem with h | h
    · have hp : p = (c, L) := h.symm
      subst hp
      rw [filter_block_eq, if_pos rfl, filter_blocks_nil c B rest hnd.1, List.append_nil,
        List.map_map]
      simp
    · have hne : p.1 ≠ c := by
        intro he
        exact hnd.1 (he ▸ List.mem_map_of_mem Prod.fst h)
      rw [filter_block_eq, if_neg hne, List.nil_append]
      exact ih hnd.2 h

lemma bin_starts_head (L B : Nat) : (bin_starts L B).head? = some 0 := by
  unfold bin_starts
  rw [List.range_succ_eq_map]
  simp

lemma bin_starts_last (L B : Nat) : (bin_starts L B).getLast? = some (L / B * B) := by
  unfold bin_starts
  rw [List.range_succ]
  simp

lemma sum_map_div (l : List Rat) (c : Rat) : (l.map (fun x => x / c)).sum = l.sum / c := by
  induction l with
  | nil => simp
  | cons a l ih => simp [ih]; ring

lemma map_snd_zip_eq {α β : Type} : ∀ (l1 : List α) (l2 : List β), l1.length = l2.length →
    ((l1.zip l2).map (fun e => e.2)) = l2
  | [], [], _ => rfl
  | a :: l1, b :: l2, h => by
    simp only [List.zip_cons_cons, List.map_cons]
    exact congrArg _ (map_snd_zip_eq l1 l2 (by simpa using h))
  | [], b :: l2, h => by simp at h
  | a :: l1, [], h => by simp at h

lemma normalize_column_length (col : List Rat) :
    (normalize_column col).length = col.length := by
  unfold normalize_column
  by_cases h : col.sum > 0
  · rw [if_pos h, List.length_map]
  · rw [if_neg h]


/-! ## Claim theorems -/

/-- C1: the CLI preflight is claimed to check every referenced required
input path.  The code of `check_exists` returns as soon as the first
path exists, so the preflight of the `filter` subcommand succeeds on a
file system where the oligos-capture and sparse-matrix files are missing
and the engine operation is reached with missing inputs; only the first
path is ever checked. -/
theorem c1_check_exists_only_first_path :
    filter_preflight fs_only_fragments "fragments.txt" "oligos.csv" "matrix.txt" =
      Except.ok () ∧
    fs_only_fragments "oligos.csv" = false ∧
    fs_only_fragments "matrix.txt" = false :=
  ⟨rfl, rfl, rfl⟩

/-- C2: `sort_by_chr` is claimed to return the sorted table with any
unrecognized chromosome name after all known ones; on the claim's own
example input containing `unknownX`, the code instead raises
`IndexError` (`order[len(order)]` is out of range when mapping the
integer codes back to names), while the same input without the unknown
name sorts as intended -- showing the mapping of unknown names to
`len(order)` was meant to sort them last. -/
theorem c2_sort_by_chr_unknown_name_raises :
    sort_by_chr_names ["chr3", "chr1", "2_micron", "chr16", "unknownX"] =
      Except.error "IndexError: list index out of range" ∧
    sort_by_chr_names ["chr3", "chr1", "2_micron", "chr16"] =
      Except.ok ["chr1", "chr3", "chr16", "2_micron"] :=
  ⟨rfl, rfl⟩

/-- C3: rebinning conserves contacts.  For every genome with distinct
chromosome names, every positive bin size and every unbinned profile
whose rows lie within their chromosomes, the sum of the binned contact
column over all template bins equals the sum of the unbinned contact
column over all rows (exactly, hence within any floating-point
tolerance); and every bin-spanning row is split into exactly the two
synthetic entries with weights `frac_end = (end - end_bin) / sizes` on
the `end_bin` row and `1 - frac_end` on the `start_bin` row, which sum
to 1. -/
theorem c3_rebin_contacts_conserving (genome : List (String × Nat)) (B : Nat)
    (rows : List URow) (hB : 0 < B) (hnd : (genome.map Prod.fst).Nodup)
    (hfit : ∀ r ∈ rows, ∃ L, (r.chr, L) ∈ genome ∧ r.start + r.size ≤ L) :
    (col_values (rebin_column genome B rows)).sum = (rows.map (fun r => r.v)).sum ∧
    ∀ r ∈ rows, r.start / B * B ≠ (r.start + r.size) / B * B →
      split_row B r = [((r.chr, r.start / B * B), r.v * (1 - frac_end B r)),
        ((r.chr, (r.start + r.size) / B * B), r.v * frac_end B r)] ∧
      (1 - frac_end B r) + frac_end B r = 1 := by
  constructor
  · unfold col_values rebin_column
    rw [List.map_map]
    have hmm : ((template_keys genome B).map
        ((fun e => e.2) ∘ (fun k => (k,
          (((rows.map (split_row B)).flatten.filter (fun e => e.1 == k)).map
            (fun e => e.2)).sum)))) =
        (template_keys genome B).map
          (fun k => (((rows.map (split_row B)).flatten.filter (fun e => e.1 == k)).map
            (fun e => e.2)).sum) := rfl
    rw [hmm, sum_filter_key _ _ (template_keys_nodup genome B hB hnd) ?side]
    case side =>
      intro e he
      rw [List.mem_flatten] at he
      obtain ⟨l, hl, hel⟩ := he
      rw [List.mem_map] at hl
      obtain ⟨r, hr, rfl⟩ := hl
      obtain ⟨L, hgL, hfitL⟩ := hfit r hr
      exact split_row_keys hgL hfitL e hel
    rw [List.map_flatten, List.map_map, List.sum_flatten, List.map_map]
    congr 1
    apply List.map_congr_left
    intro r _
    exact split_row_sum B r
  · intro r _ h
    constructor
    · unfold split_row
      rw [if_neg h]
    · ring

/-- C3 witness: the hypotheses and the conserved sum instantiated on a
one-chromosome genome with bin size 4 and a single row spanning two
bins. -/
theorem c3_rebin_contacts_conserving_witness :
    (0 < 4 ∧ ((demo_genome.map Prod.fst).Nodup) ∧
      (∀ r ∈ demo_rows, ∃ L, (r.chr, L) ∈ demo_genome ∧ r.start + r.size ≤ L)) ∧
    (col_values (rebin_column demo_genome 4 demo_rows)).sum =
      (demo_rows.map (fun r => r.v)).sum := by
  have hfit : ∀ r ∈ demo_rows, ∃ L, (r.chr, L) ∈ demo_genome ∧ r.start + r.size ≤ L := by
    intro r hr
    rw [demo_rows, List.mem_singleton] at hr
    subst hr
    exact ⟨10, by decide, by decide⟩
  exact ⟨⟨by decide, by decide, hfit⟩,
    (c3_rebin_contacts_conserving demo_genome 4 demo_rows (by decide) (by decide) hfit).1⟩

/-- C4 counterexample: the pooled formula at `n1 = 5, std1 = 2, n2 = 7,
std2 = 3` yields `sqrt 7 = 2.6457...`, which is not within `0.005` of
the claimed `2.657`. -/
theorem c4_pooled_std_not_2657 :
    pooled_std_sq 5 7 2 3 = 7 ∧
    ¬ |Real.sqrt ((pooled_std_sq 5 7 2 3 : Rat) : Real) - 2.657| ≤ 0.005 := by
  have h7 : pooled_std_sq 5 7 2 3 = 7 := by norm_num [pooled_std_sq]
  refine ⟨h7, ?_⟩
  rw [h7]
  have hub : Real.sqrt ((7 : Rat) : Real) < 2.6458 := by
    rw [Real.sqrt_lt' (by norm_num)]
    norm_num
  rw [abs_le]
  push_neg
  intro h
  exfalso
  nlinarith [hub]

/-- C4 amended: the legacy aggregation merges the two half-window std
columns elementwise by
`sqrt(((n1-1)*std1^2 + (n2-1)*std2^2) / (n1+n2-2))` with `n1`, `n2` the
half lengths; at `n1 = 5, std1 = 2.0, n2 = 7, std2 = 3.0` the pooled
estimate equals `sqrt 7`, approximately 2.646 (not 2.657). -/
theorem c4_pooled_std_sqrt_seven :
    pooled_std_sq 5 7 2 3 = 7 ∧
    |Real.sqrt ((pooled_std_sq 5 7 2 3 : Rat) : Real) - 2.646| < 0.0005 := by
  have h7 : pooled_std_sq 5 7 2 3 = 7 := by norm_num [pooled_std_sq]
  refine ⟨h7, ?_⟩
  rw [h7]
  have hub : Real.sqrt ((7 : Rat) : Real) < 2.6458 := by
    rw [Real.sqrt_lt' (by norm_num)]
    norm_num
  have hlb : (2.6455 : Real) < Real.sqrt ((7 : Rat) : Real) := by
    rw [Real.lt_sqrt (by norm_num)]
    norm_num
  rw [abs_lt]
  constructor <;> nlinarith [hub, hlb]

/-- C5 counterexample: with `window = 20000` and
`left_arm_length = 60000`, the bin `30000` satisfies the claim's closed
lower bound `left_arm_length - window - 10000 <= bin` but is dropped by
the code's strict comparison; and with `left_arm_length = 156000` the
retained bin `170000` is recentred by the code to `20000`
(`abs(170000 - (156000 // 10000) * 10000)`), not to the claim's
nearest-10-kb distance `10000` (`|170000 - 156000| = 14000` rounded). -/
theorem c5_cen_window_counterexample :
    cen_areas 20000 [({ chr_bins := 30000, left_arm_length := 60000, rest := () } : CenRow Unit)] =
      [] ∧
    cen_filter_spec 20000 60000 30000 = true ∧
    cen_areas 20000
        [({ chr_bins := 170000, left_arm_length := 156000, rest := () } : CenRow Unit)] =
      [{ chr_bins := 20000, left_arm_length := 156000, rest := () }] ∧
    cen_recenter_spec 156000 170000 = 10000 := by
  refine ⟨?_, by decide, ?_, by decide⟩ <;> decide

/-- C5 amended: in centromere aggregation mode, exactly the bins `b`
with `left_arm_length - window - 10000 < b < left_arm_length + window`
(strict at both bounds) are retained, and every retained bin is
recentred to the absolute difference between the bin and the centromere
position rounded *down* to a multiple of 10 kb. -/
theorem c5_cen_window_amended {α : Type} (w : Int) (rows : List (CenRow α)) :
    cen_areas w rows =
      (rows.filter (fun r =>
        decide (r.left_arm_length - w - 10000 < r.chr_bins ∧
          r.chr_bins < r.left_arm_length + w))).map
        (fun r =>
          { r with chr_bins := |r.chr_bins - 10000 * Int.fdiv r.left_arm_length 10000| }) := by
  unfold cen_areas
  have h1 : rows.filter (fun r => cen_filter w r.left_arm_length r.chr_bins) =
      rows.filter (fun r =>
        decide (r.left_arm_length - w - 10000 < r.chr_bins ∧
          r.chr_bins < r.left_arm_length + w)) := by
    apply List.filter_congr
    intro r _
    simp [cen_filter]
  rw [h1]
  apply List.map_congr_left
  intro r _
  unfold cen_recenter
  rw [Int.mul_comm (Int.fdiv r.left_arm_length 10000) 10000]

/-- C6: in the per-probe statistics, for every probe with a positive
contact total, `cis + trans = 1` and `intra_chr + inter_chr = 1`
(exactly, hence within `1e-9`); for a probe with zero contacts all four
fractions are 0. -/
theorem c6_stats_fractions_invariants (chr_ori : String)
    (start_ori stop_ori cis_range : Int) (rows : List PRow) :
    (0 < probe_contacts rows →
      (get_stats_fractions chr_ori start_ori stop_ori cis_range rows).1 +
        (get_stats_fractions chr_ori start_ori stop_ori cis_range rows).2.1 = 1 ∧
      (get_stats_fractions chr_ori start_ori stop_ori cis_range rows).2.2.1 +
        (get_stats_fractions chr_ori start_ori stop_ori cis_range rows).2.2.2 = 1) ∧
    (probe_contacts rows = 0 →
      get_stats_fractions chr_ori start_ori stop_ori cis_range rows = (0, 0, 0, 0)) := by
  constructor
  · intro h
    unfold get_stats_fractions
    rw [if_pos h]
    constructor <;> ring
  · intro h
    unfold get_stats_fractions
    rw [if_neg (by rw [h]; exact lt_irrefl 0)]

/-- C6 witness: the invariants instantiated on a probe with contact
total 4 on a two-row profile slice. -/
theorem c6_stats_fractions_invariants_witness :
    0 < probe_contacts demo_prows ∧
    (get_stats_fractions "chr1" 0 10 50000 demo_prows).1 +
      (get_stats_fractions "chr1" 0 10 50000 demo_prows).2.1 = 1 ∧
    (get_stats_fractions "chr1" 0 10 50000 demo_prows).2.2.1 +
      (get_stats_fractions "chr1" 0 10 50000 demo_prows).2.2.2 = 1 := by
  have hpos : 0 < probe_contacts demo_prows := by
    norm_num [probe_contacts, demo_prows]
  have h := (c6_stats_fractions_invariants "chr1" 0 10 50000 demo_prows).1 hpos
  exact ⟨hpos, h.1, h.2⟩

/-- C7: frequency normalization is a partition of unity: a column with a
strictly positive total is divided by that total and then sums exactly
to 1 (hence within `1e-9`); a column whose total is zero is returned
unchanged, and no error is raised (the operation is total); in
particular the binned frequency column of `rebin_contacts` sums to 1
whenever the binned contact column has a positive total. -/
theorem c7_frequency_partition_of_unity (col : List Rat)
    (genome : List (String × Nat)) (B : Nat) (rows : List URow) :
    (0 < col.sum → (normalize_column col).sum = 1) ∧
    (col.sum = 0 → normalize_column col = col) ∧
    (0 < (col_values (rebin_column genome B rows)).sum →
      (col_values (rebin_frequencies genome B rows)).sum = 1) := by
  have key : ∀ c : List Rat, 0 < c.sum → (normalize_column c).sum = 1 := by
    intro c h
    unfold normalize_column
    rw [if_pos h, sum_map_div, div_self (ne_of_gt h)]
  refine ⟨key col, ?_, ?_⟩
  · intro h
    unfold normalize_column
    rw [if_neg (by rw [h]; exact lt_irrefl 0)]
  · intro h
    have hzip : col_values (rebin_frequencies genome B rows) =
        normalize_column (col_values (rebin_column genome B rows)) := by
      unfold rebin_frequencies col_values
      apply map_snd_zip_eq
      rw [List.length_map, normalize_column_length, List.length_map]
    rw [hzip]
    exact key _ h

/-- C7 witness: a column with total 5 normalizes to sum 1. -/
theorem c7_frequency_partition_of_unity_witness :
    0 < ([2, 3] : List Rat).sum ∧ (normalize_column [2, 3]).sum = 1 := by
  have h : 0 < ([2, 3] : List Rat).sum := by norm_num
  exact ⟨h, (c7_frequency_partition_of_unity [2, 3] [] 1 []).1 h⟩

/-- C8: for every chromosome of length `L` in the genome and every bin
size `B > 0`, the template built by `build_bins_from_genome` has exactly
`L / B + 1` rows for that chromosome, whose bin starts are
`0, B, ..., (L / B) * B` (first 0, last `(L / B) * B`), and its
`genome_bins` column renumbers the concatenated rows purely
sequentially: the `k`-th row carries `k * B` regardless of the
chromosome lengths. -/
theorem c8_build_bins_per_chromosome (genome : List (String × Nat)) (B : Nat)
    (c : String) (L : Nat) (hB : 0 < B) (hnd : (genome.map Prod.fst).Nodup)
    (hmem : (c, L) ∈ genome) :
    (((template_keys genome B).filter (fun r => r.1 == c)).map (fun r => r.2)) =
      bin_starts L B ∧
    (bin_starts L B).length = L / B + 1 ∧
    (bin_starts L B).head? = some 0 ∧
    (bin_starts L B).getLast? = some (L / B * B) ∧
    ∀ k (hk : k < (build_bins_from_genome genome B).genome_bins.length),
      (build_bins_from_genome genome B).genome_bins.get ⟨k, hk⟩ = k * B := by
  refine ⟨template_filter_eq genome B c L hnd hmem, bin_starts_length L B,
    bin_starts_head L B, bin_starts_last L B, ?_⟩
  intro k hk
  simp [build_bins_from_genome, List.get_eq_getElem]

/-- C8 witness: the template facts instantiated on a two-chromosome
genome of lengths 7 and 5 with bin size 3, checking the `chr2` block and
the fifth `genome_bins` entry. -/
theorem c8_build_bins_per_chromosome_witness :
    (0 < 3 ∧ ((demo_genome2.map Prod.fst).Nodup) ∧ ("chr2", 5) ∈ demo_genome2) ∧
    (((template_keys demo_genome2 3).filter (fun r => r.1 == "chr2")).map (fun r => r.2)) =
      bin_starts 5 3 ∧
    (build_bins_from_genome demo_genome2 3).genome_bins.get ⟨4, by decide⟩ = 4 * 3 := by
  have h := c8_build_bins_per_chromosome demo_genome2 3 "chr2" 5 (by decide) (by decide)
    (by decide)
  exact ⟨⟨by decide, by decide, by decide⟩, h.1, h.2.2.2.2 4 (by decide)⟩

/-- C9: calling the aggregation engine with `excluded_chr_list` left at
its default `None` makes the per-chromosome membership test
`chr_ not in excluded_chr_list` raise `TypeError` for any nonempty
coordinate table, before any aggregated table is written (every write
happens after that point); supplying a -- possibly empty -- list lets
the operation run to completion, as shown on a concrete input. -/
theorem c9_aggregate_requires_excluded_list (coords : List CoordRow)
    (contacts : List ContRow) (p : String) (w : Int) (epc inorm : Bool)
    (hne : coords ≠ []) :
    aggregate_model coords contacts p w none epc inorm = Except.error PyErr.typeError ∧
    (aggregate_model demo_coords demo_contacts "chr1" 150000 (some []) true true).isOk =
      true := by
  constructor
  · match coords, hne with
    | c :: cs, _ => rfl
  · rfl

/-- C9 witness: the `TypeError` failure instantiated on the concrete
two-chromosome coordinate table. -/
theorem c9_aggregate_requires_excluded_list_witness :
    demo_coords ≠ [] ∧
    aggregate_model demo_coords demo_contacts "chr1" 150000 none true true =
      Except.error PyErr.typeError :=
  ⟨by decide,
    (c9_aggregate_requires_excluded_list demo_coords demo_contacts "chr1" 150000 true true
      (by decide)).1⟩

/-- C10: delimiter detection returns the tab character exactly when the
file contents hold strictly more tabs than commas, and returns the comma
whenever the tab count is less than or equal to the comma count --
including for contents with neither character. -/
theorem c10_detect_delimiter_majority (s : String) :
    (detect_delimiter s = '\t' ↔ s.toList.count ',' < s.toList.count '\t') ∧
    (s.toList.count '\t' ≤ s.toList.count ',' → detect_delimiter s = ',') := by
  unfold detect_delimiter
  constructor
  · by_cases h : s.toList.count '\t' > s.toList.count ','
    · rw [if_pos h]
      exact ⟨fun _ => h, fun _ => rfl⟩
    · rw [if_neg h]
      constructor
      · intro hc
        exact absurd hc (by decide)
      · intro hlt
        exact absurd hlt h
  · intro hle
    rw [if_neg (not_lt.mpr hle)]

/-- C10 witness: empty contents hold no tab and no comma, and the comma
is returned. -/
theorem c10_detect_delimiter_majority_witness :
    ("".toList.count '\t' ≤ "".toList.count ',') ∧ detect_delimiter "" = ',' :=
  ⟨by decide, (c10_detect_delimiter_majority "").2 (by decide)⟩

end SshdnaHic
